import Mathlib

set_option maxRecDepth 1000000

/-!
# Verification of the `aerosol_tools` AOD aggregation engine

Shallow embedding of `src/aerosol_tools/filters/__init__.py` and
`src/aerosol_tools/aod/__init__.py`.

Modelling conventions:

* Floating-point values that may be NaN are modelled as `Option ℚ`
  (`none` = NaN).  All comparisons against NaN are false, which is exactly
  the IEEE behaviour the numpy code relies on, and is encoded explicitly in
  the predicates below.
* The xarray `Dataset` is the `Grid` structure: a `time` coordinate, an
  `altitude` coordinate, a time-major `extinction` matrix and a
  per-time `tropopause_altitude` vector.
* `DataArray.where(cond, other)` keeps a cell when `cond` holds and writes
  `other` there otherwise; `mean` skips NaN (result NaN when no value
  remains); `sel(altitude=slice(0, max_alt_km))` is the label slice of a
  sorted index, i.e. keeps bins with `0 ≤ altitude ≤ max_alt_km`;
  `integrate("altitude")` is the trapezoidal rule over the coordinate
  (NaN anywhere in a participating term makes the result NaN; fewer than
  two points integrate to `0.0`, as `np.trapz` does).
* The Python functions mutate the dataset passed in (`data["extinction"] = …`)
  and also return it.  Statefulness is made explicit: the truncation
  operators return the updated grid (which is also the caller's grid after
  the call), and each estimator returns the pair
  `(AOD value, caller's grid after the call)`.
-/

/-- The standardized in-memory grid consumed by the engine: xarray `Dataset`
with fields `extinction(time, altitude)`, `tropopause_altitude(time)` and
coordinates `time`, `altitude`.  Timestamps are opaque labels. -/
structure Grid where
  time : List ℕ
  altitude : List ℚ
  extinction : List (List (Option ℚ))
  tropopause_altitude : List (Option ℚ)
  deriving Repr, DecidableEq

/-- Strictly increasing coordinate values. -/
def ascending : List ℚ → Bool
  | [] => true
  | [_] => true
  | a :: b :: r => decide (a < b) && ascending (b :: r)

/-- Well-formedness of a grid: the arrays are co-indexed (`extinction` has one
row per time entry and one column per altitude bin, `tropopause_altitude` has
one entry per time), there is at least one profile, and the altitude
coordinate is strictly increasing, as the data model requires. -/
def WF (g : Grid) : Prop :=
  g.extinction.length = g.time.length ∧
  g.tropopause_altitude.length = g.time.length ∧
  (∀ row ∈ g.extinction, row.length = g.altitude.length) ∧
  0 < g.time.length ∧
  ascending g.altitude = true

instance (g : Grid) : Decidable (WF g) :=
  inferInstanceAs (Decidable (g.extinction.length = g.time.length ∧
    g.tropopause_altitude.length = g.time.length ∧
    (∀ row ∈ g.extinction, row.length = g.altitude.length) ∧
    0 < g.time.length ∧
    ascending g.altitude = true))

/-- The boolean `altitude > tropopause_altitude + km_above` of the numpy
code: when the tropopause is NaN the comparison is false. -/
def tropCond (trop : Option ℚ) (km_above alt : ℚ) : Bool :=
  match trop with
  | none => false
  | some tr => decide (alt > tr + km_above)

/-- The boolean `extinction >= filter_val` of the numpy code: false when the
extinction value is NaN. -/
def extGe (v : Option ℚ) (filter_val : ℚ) : Bool :=
  match v with
  | none => false
  | some x => decide (x ≥ filter_val)

/-- `truncate_below_tropopause(data, km_above, fill_value)` from
`filters/__init__.py`: replace `extinction` by
`extinction.where(altitude > tropopause_altitude + km_above, other=fill_value)`.
`fill_value : Option ℚ` covers both the Python `None` default (which the code
turns into NaN) and an explicit NaN or float argument.  The result is also
the caller's grid after the call (the assignment mutates in place). -/
def truncate_below_tropopause (data : Grid) (km_above : ℚ) (fill_value : Option ℚ) :
    Grid :=
  let ext :=
    List.zipWith
      (fun row trop =>
        List.zipWith
          (fun v alt => if tropCond trop km_above alt then v else fill_value)
          row data.altitude)
      data.extinction data.tropopause_altitude
  { data with extinction := ext }

/-- The per-profile cutoff of `truncate_below_max_value`:
`min_alt = ((extinction >= filter_val) * altitude).where(… > 0).max(dim="altitude") + 0.1`,
then `fillna(0.0)`.  The boolean-times-altitude product is `altitude` where
the exceedance holds and `0` elsewhere; `where(min_alt > 0)` turns
non-positive entries into NaN; `max` skips NaN and is NaN on an all-NaN
slice; adding `0.1` propagates NaN; `fillna` maps NaN to `0`. -/
def cutoffOf (altitude : List ℚ) (row : List (Option ℚ)) (filter_val : ℚ) : ℚ :=
  let prods := List.zipWith (fun v alt => if extGe v filter_val then alt else 0)
      row altitude
  match (prods.filter (fun x => decide (x > 0))).max? with
  | none => 0
  | some m => m + 1/10

/-- `truncate_below_max_value(data, filter_val)` from `filters/__init__.py`:
compute the per-profile cutoff and replace `extinction` by
`extinction.where(altitude > min_alt)` (filled with NaN).  The result is also
the caller's grid after the call. -/
def truncate_below_max_value (data : Grid) (filter_val : ℚ) : Grid :=
  let ext :=
    data.extinction.map
      (fun row =>
        let minAlt := cutoffOf data.altitude row filter_val
        List.zipWith
          (fun v alt => if decide (alt > minAlt) then v else none)
          row data.altitude)
  { data with extinction := ext }

/-- NaN-skipping mean of a vector (`DataArray.mean` with the default
`skipna=True`): the mean of the non-NaN entries, NaN when none remain. -/
def nanmean (xs : List (Option ℚ)) : Option ℚ :=
  let vals := xs.filterMap id
  if vals.length = 0 then none else some (vals.sum / vals.length)

/-- Column `a` of the extinction matrix (the slice reduced by
`mean(dim="time")`). -/
def column (ext : List (List (Option ℚ))) (a : ℕ) : List (Option ℚ) :=
  ext.map (fun row => row.getD a none)

/-- `extinction.mean(dim="time")` as a labelled profile: each altitude bin
paired with the NaN-skipping mean of its column. -/
def meanOverTime (data : Grid) : List (ℚ × Option ℚ) :=
  (List.range data.altitude.length).map
    (fun a => (data.altitude.getD a 0, nanmean (column data.extinction a)))

/-- `sel(altitude=slice(0, max_alt_km))` on a profile labelled by a sorted
altitude coordinate: keep the bins with `0 ≤ altitude ≤ max_alt_km`
(label slices are inclusive at both ends). -/
def selAlt (profile : List (ℚ × Option ℚ)) (max_alt_km : ℚ) : List (ℚ × Option ℚ) :=
  profile.filter (fun p => decide (0 ≤ p.1) && decide (p.1 ≤ max_alt_km))

/-- `where(mean_extinction > 0, drop=True)` on a one-dimensional profile:
drop the bins whose value is not strictly positive (a NaN compares false and
is dropped as well). -/
def dropNonpos (profile : List (ℚ × Option ℚ)) : List (ℚ × Option ℚ) :=
  profile.filter (fun p => match p.2 with
    | none => false
    | some v => decide (v > 0))

/-- `fillna(c)` on a labelled profile. -/
def fillna (profile : List (ℚ × Option ℚ)) (c : ℚ) : List (ℚ × Option ℚ) :=
  profile.map (fun p => (p.1, some (p.2.getD c)))

/-- One trapezoid term: width `d` times the mean of the two endpoint values,
NaN when either endpoint is NaN. -/
def trapVal : Option ℚ → Option ℚ → ℚ → Option ℚ
  | some a, some b, d => some (d * (a + b) / 2)
  | _, _, _ => none

/-- The trapezoid terms of `integrate("altitude")`: one term per consecutive
pair of bins, NaN when either participating value is NaN. -/
def trapTerms (profile : List (ℚ × Option ℚ)) : List (Option ℚ) :=
  (profile.zip profile.tail).map
    (fun pq => trapVal pq.1.2 pq.2.2 (pq.2.1 - pq.1.1))

/-- `integrate("altitude")` (`np.trapz` over the coordinate): the sum of the
trapezoid terms; NaN as soon as one term is NaN; `0.0` for fewer than two
points (an empty sum). -/
def trapz (profile : List (ℚ × Option ℚ)) : Option ℚ :=
  if (trapTerms profile).any (fun t => t.isNone) then none
  else some ((trapTerms profile).filterMap id).sum

/-- `calculate_aod_cdf_tropopause(data, max_alt_km, km_above)` from
`aod/__init__.py`: truncate below the local tropopause with fill `0.0`,
take the time mean, select `slice(0, max_alt_km)` and integrate.  Returns
the AOD value together with the caller's grid after the call (the
truncation mutated it). -/
def calculate_aod_cdf_tropopause (data : Grid) (max_alt_km km_above : ℚ) :
    Option ℚ × Grid :=
  let data := truncate_below_tropopause data km_above (some 0)
  let mean_extinction := selAlt (meanOverTime data) max_alt_km
  (trapz mean_extinction, data)

/-- `calculate_aod_mean_tropopause(data, max_alt_km, km_above)` from
`aod/__init__.py`: mask every profile below the ensemble-mean tropopause
(`where` with no `other` fills NaN), take the time mean, select
`slice(0, max_alt_km)`, drop non-positive bins and integrate.  Returns the
AOD value together with the caller's grid after the call (the `extinction`
assignment on line 81 mutated it). -/
def calculate_aod_mean_tropopause (data : Grid) (max_alt_km km_above : ℚ) :
    Option ℚ × Grid :=
  let mean_trop := nanmean data.tropopause_altitude
  let ext :=
    data.extinction.map
      (fun row =>
        List.zipWith
          (fun v alt => if tropCond mean_trop km_above alt then v else none)
          row data.altitude)
  let data := { data with extinction := ext }
  let mean_extinction := selAlt (meanOverTime data) max_alt_km
  (trapz (dropNonpos mean_extinction), data)

/-- `calculate_aod_local_tropopause(data, max_alt_km, km_above)` from
`aod/__init__.py`: truncate below the local tropopause with fill NaN, take
the time mean, select `slice(0, max_alt_km)`, drop non-positive bins and
integrate.  Returns the AOD value together with the caller's grid after the
call. -/
def calculate_aod_local_tropopause (data : Grid) (max_alt_km km_above : ℚ) :
    Option ℚ × Grid :=
  let data := truncate_below_tropopause data km_above none
  let mean_extinction := selAlt (meanOverTime data) max_alt_km
  (trapz (dropNonpos mean_extinction), data)

/-- `calculate_aod_per_profile(data, max_alt_km, km_above)` from
`aod/__init__.py`: truncate below the local tropopause with fill NaN; per
profile select `slice(0, max_alt_km)`, fill NaN with `0.0` and integrate;
then take the NaN-skipping mean of the per-profile AODs over time.  Returns
the AOD value together with the caller's grid after the call. -/
def calculate_aod_per_profile (data : Grid) (max_alt_km km_above : ℚ) :
    Option ℚ × Grid :=
  let data := truncate_below_tropopause data km_above none
  let aods := data.extinction.map
    (fun row => trapz (fillna (selAlt (data.altitude.zip row) max_alt_km) 0))
  (nanmean aods, data)

/-! ## The synthetic regression-test grid (`tests/test_aod.py`, `omps_data`) -/

/-- `np.arange(10.5, 40.5)`: altitude bins 10.5, 11.5, …, 39.5 km. -/
def ompsAlt : List ℚ := (List.range 30).map (fun k => 21/2 + k)

/-- `np.ones((10, 30))` with `ext[7, 0:10] = nan` and `ext[3, 0:2] = nan`. -/
def ompsExt : List (List (Option ℚ)) :=
  (List.range 10).map (fun t =>
    (List.range 30).map (fun a =>
      if t = 7 ∧ a < 10 then none else if t = 3 ∧ a < 2 then none else some 1))

/-- `np.linspace(10.5, 15.0, 10)`: tropopause 10.5, 11, …, 15 km. -/
def ompsTrop : List (Option ℚ) := (List.range 10).map (fun t => some (21/2 + t/2))

/-- The `omps_data` fixture: ten profiles on the bins 10.5 … 39.5 km,
extinction one everywhere apart from the missing lowest samples of
profiles 7 (ten samples) and 3 (two samples), tropopause linearly spaced
from 10.5 to 15 km. -/
def omps : Grid := ⟨List.range 10, ompsAlt, ompsExt, ompsTrop⟩

/-! ## Helper lemmas -/

lemma zipWith_zipWith_same {α β γ δ : Type} (f : γ → β → δ) (g : α → β → γ)
    (l1 : List α) (l2 : List β) :
    List.zipWith f (List.zipWith g l1 l2) l2 =
      List.zipWith (fun a b => f (g a b) b) l1 l2 := by
  induction l1 generalizing l2 with
  | nil => simp
  | cons a l ih => cases l2 <;> simp [ih]

lemma zipWith_ext {α β γ : Type} {f f' : α → β → γ} (l1 : List α) (l2 : List β)
    (h : ∀ a b, f a b = f' a b) : List.zipWith f l1 l2 = List.zipWith f' l1 l2 := by
  induction l1 generalizing l2 with
  | nil => simp
  | cons a l ih => cases l2 <;> simp [h, ih]

/-- Cell-level description of `truncate_below_tropopause`: each cell is kept
when the `where` condition holds and is `fill_value` otherwise. -/
lemma truncate_cell_eq (g : Grid) (km_above : ℚ) (fv : Option ℚ) (t a : ℕ)
    (ht : t < g.extinction.length) (ht2 : t < g.tropopause_altitude.length)
    (ha : a < (g.extinction.getD t []).length) (ha2 : a < g.altitude.length) :
    ((truncate_below_tropopause g km_above fv).extinction.getD t []).getD a none =
      if tropCond (g.tropopause_altitude.getD t none) km_above (g.altitude.getD a 0)
      then (g.extinction.getD t []).getD a none else fv := by
  rw [List.getD_eq_getElem _ _ ht] at ha
  rw [List.getD_eq_getElem _ _ ht, List.getD_eq_getElem _ _ ha,
    List.getD_eq_getElem _ _ ha2, List.getD_eq_getElem _ _ ht2]
  unfold truncate_below_tropopause
  have hlen : t < (List.zipWith
      (fun row trop => List.zipWith
        (fun v alt => if tropCond trop km_above alt then v else fv)
        row g.altitude) g.extinction g.tropopause_altitude).length := by
    simp [List.length_zipWith]; omega
  rw [List.getD_eq_getElem _ _ hlen, List.getElem_zipWith]
  have hlen2 : a < (List.zipWith
      (fun v alt => if tropCond (g.tropopause_altitude[t]) km_above alt then v else fv)
      (g.extinction[t]) g.altitude).length := by
    simp [List.length_zipWith]; omega
  rw [List.getD_eq_getElem _ _ hlen2, List.getElem_zipWith]

/-! ## Claims -/

/-- **C2**: on the synthetic regression grid (ten profiles, bins
10.5 … 39.5 km, unit extinction, tropopause linearly spaced 10.5 → 15 km,
profile 7 missing its lowest ten samples and profile 3 its lowest two) with
the default arguments `max_alt_km = 35.0`, `km_above = 0.0`, the four
estimators return 21.477777…, 21.0, 23.0 and 20.9, each within `1e-7` of
the regression-test reference value. -/
theorem aod_regression_values :
    (calculate_aod_cdf_tropopause omps 35 0).1 = some (1933/90) ∧
    |(1933/90 : ℚ) - 21.477777777777778| ≤ 1/10000000 ∧
    (calculate_aod_mean_tropopause omps 35 0).1 = some 21 ∧
    (calculate_aod_local_tropopause omps 35 0).1 = some 23 ∧
    (calculate_aod_per_profile omps 35 0).1 = some (209/10) ∧
    |(209/10 : ℚ) - 20.9| ≤ 1/10000000 := by
  with_unfolding_all decide

/-- **C1**: `truncate_below_tropopause` writes `fill_value` into a cell
exactly when its altitude is at or below the shifted tropopause of its
profile, and leaves the cell unchanged otherwise (in particular, with fill
`0.0` every cell at or below the boundary is exactly `0`, and with fill NaN
it is NaN). -/
theorem truncate_below_tropopause_cell (g : Grid) (km_above : ℚ) (fv : Option ℚ)
    (t a : ℕ) (tr : ℚ)
    (ht : t < g.extinction.length) (ht2 : t < g.tropopause_altitude.length)
    (ha : a < (g.extinction.getD t []).length) (ha2 : a < g.altitude.length)
    (htr : g.tropopause_altitude.getD t none = some tr) :
    ((truncate_below_tropopause g km_above fv).extinction.getD t []).getD a none =
      if g.altitude.getD a 0 ≤ tr + km_above then fv
      else (g.extinction.getD t []).getD a none := by
  rw [truncate_cell_eq g km_above fv t a ht ht2 ha ha2, htr]
  simp only [tropCond]
  rcases le_or_lt (g.altitude.getD a 0) (tr + km_above) with hle | hgt
  · rw [if_neg (by rw [decide_eq_true_eq]; exact not_lt.mpr hle), if_pos hle]
  · rw [if_pos (by rw [decide_eq_true_eq]; exact hgt), if_neg (not_le.mpr hgt)]

/-- Small concrete grid used to instantiate the hypotheses of the general
theorems: two profiles on the bins 5 km and 20 km, the first with tropopause
10 km, the second with a missing (NaN) tropopause. -/
def wgrid : Grid :=
  ⟨[0, 1], [5, 20], [[some 2, some 3], [some 4, some 5]], [some 10, none]⟩

theorem truncate_below_tropopause_cell_witness :
    ((truncate_below_tropopause wgrid 1 (some 0)).extinction.getD 0 []).getD 0 none
      = some 0 := by
  have h := truncate_below_tropopause_cell wgrid 1 (some 0) 0 0 10
    (by with_unfolding_all decide) (by with_unfolding_all decide)
    (by with_unfolding_all decide) (by with_unfolding_all decide)
    (by with_unfolding_all decide)
  rwa [if_pos (by with_unfolding_all decide : (wgrid.altitude.getD 0 0 : ℚ) ≤ 10 + 1)] at h

/-- **C9**: a profile whose `tropopause_altitude` is missing (NaN) has its
entire extinction column replaced by `fill_value`: the numpy comparison
`altitude > NaN + km_above` is false at every altitude, so the per-profile
truncation used by the estimators fills/masks the whole profile rather than
skipping it. -/
theorem truncate_nan_tropopause_fills_column (g : Grid) (km_above : ℚ)
    (fv : Option ℚ) (t a : ℕ)
    (ht : t < g.extinction.length) (ht2 : t < g.tropopause_altitude.length)
    (ha : a < (g.extinction.getD t []).length) (ha2 : a < g.altitude.length)
    (htr : g.tropopause_altitude.getD t none = none) :
    ((truncate_below_tropopause g km_above fv).extinction.getD t []).getD a none = fv := by
  rw [truncate_cell_eq g km_above fv t a ht ht2 ha ha2, htr]
  simp [tropCond]

theorem truncate_nan_tropopause_fills_column_witness :
    ((truncate_below_tropopause wgrid 0 (some 0)).extinction.getD 1 []).getD 1 none
      = some 0 :=
  truncate_nan_tropopause_fills_column wgrid 0 (some 0) 1 1
    (by with_unfolding_all decide) (by with_unfolding_all decide)
    (by with_unfolding_all decide) (by with_unfolding_all decide)
    (by with_unfolding_all decide)

/-- **C5**: increasing `km_above` only raises the effective boundary,
monotonically: a cell that survives the `where` condition of
`truncate_below_tropopause` at the larger shift `km'` also survives at any
smaller shift `km` and keeps its original value there, so the surviving-cell
mask at `km_above = 1` is a subset of the mask at `km_above = 0`. -/
theorem truncate_mask_monotone (g : Grid) (km km' : ℚ) (t a : ℕ)
    (hkm : km ≤ km')
    (ht : t < g.extinction.length) (ht2 : t < g.tropopause_altitude.length)
    (ha : a < (g.extinction.getD t []).length) (ha2 : a < g.altitude.length)
    (hkept : tropCond (g.tropopause_altitude.getD t none) km'
      (g.altitude.getD a 0) = true) :
    tropCond (g.tropopause_altitude.getD t none) km (g.altitude.getD a 0) = true ∧
    ((truncate_below_tropopause g km none).extinction.getD t []).getD a none =
      (g.extinction.getD t []).getD a none := by
  have hc : tropCond (g.tropopause_altitude.getD t none) km
      (g.altitude.getD a 0) = true := by
    cases htr : g.tropopause_altitude.getD t none with
    | none => rw [htr] at hkept; simp [tropCond] at hkept
    | some tr =>
      rw [htr] at hkept
      simp only [tropCond, decide_eq_true_eq] at hkept ⊢
      linarith
  refine ⟨hc, ?_⟩
  rw [truncate_cell_eq g km none t a ht ht2 ha ha2, if_pos hc]

theorem truncate_mask_monotone_witness :
    tropCond (wgrid.tropopause_altitude.getD 0 none) 0 (wgrid.altitude.getD 1 0) = true ∧
    ((truncate_below_tropopause wgrid 0 none).extinction.getD 0 []).getD 1 none =
      (wgrid.extinction.getD 0 []).getD 1 none :=
  truncate_mask_monotone wgrid 0 1 0 1 (by norm_num)
    (by with_unfolding_all decide) (by with_unfolding_all decide)
    (by with_unfolding_all decide) (by with_unfolding_all decide)
    (by with_unfolding_all decide)

/-- **C7**: `truncate_below_tropopause` is idempotent: applying it twice with
the same `km_above` and `fill_value` (NaN included) gives a grid identical to
the one obtained from a single application. -/
theorem truncate_below_tropopause_idempotent (g : Grid) (km_above : ℚ)
    (fv : Option ℚ) :
    truncate_below_tropopause (truncate_below_tropopause g km_above fv) km_above fv =
      truncate_below_tropopause g km_above fv := by
  unfold truncate_below_tropopause
  simp only [Grid.mk.injEq, true_and, and_true]
  rw [zipWith_zipWith_same]
  apply zipWith_ext
  intro row trop
  rw [zipWith_zipWith_same]
  apply zipWith_ext
  intro v alt
  cases h : tropCond trop km_above alt <;> simp [h]

/-- **C6**: both truncation operators update the extinction field of the very
grid the caller passed in (state-passing rendering of the in-place
assignment), leaving `time`, `altitude` and `tropopause_altitude` unchanged;
the caller's extinction is in general not preserved (concrete instance), and
the grid a caller holds after an estimator call is the truncated/masked one,
so prior truncation persists into later estimator calls on the same grid. -/
theorem truncation_mutates_callers_grid :
    (∀ g km fv, (truncate_below_tropopause g km fv).time = g.time ∧
      (truncate_below_tropopause g km fv).altitude = g.altitude ∧
      (truncate_below_tropopause g km fv).tropopause_altitude =
        g.tropopause_altitude) ∧
    (∀ g fval, (truncate_below_max_value g fval).time = g.time ∧
      (truncate_below_max_value g fval).altitude = g.altitude ∧
      (truncate_below_max_value g fval).tropopause_altitude =
        g.tropopause_altitude) ∧
    (∀ g m k, (calculate_aod_cdf_tropopause g m k).2 =
      truncate_below_tropopause g k (some 0)) ∧
    (∀ g m k, (calculate_aod_local_tropopause g m k).2 =
      truncate_below_tropopause g k none) ∧
    (∀ g m k, (calculate_aod_per_profile g m k).2 =
      truncate_below_tropopause g k none) ∧
    (∀ g m k, (calculate_aod_mean_tropopause g m k).2.time = g.time ∧
      (calculate_aod_mean_tropopause g m k).2.altitude = g.altitude ∧
      (calculate_aod_mean_tropopause g m k).2.tropopause_altitude =
        g.tropopause_altitude) ∧
    (truncate_below_tropopause wgrid 0 (some 0)).extinction ≠ wgrid.extinction := by
  refine ⟨fun g km fv => ⟨rfl, rfl, rfl⟩, fun g fval => ⟨rfl, rfl, rfl⟩,
    fun g m k => rfl, fun g m k => rfl, fun g m k => rfl,
    fun g m k => ⟨rfl, rfl, rfl⟩, ?_⟩
  with_unfolding_all decide

/-- A grid whose single profile exceeds the filter value only at altitude
`0 km`, with a second bin at `0.05 km`: the highest exceedance altitude is
`0`, so the cutoff described by C8 would be `0.1` and would null the
second bin, but the code's `where(min_alt > 0)` discards the altitude-zero
exceedance and truncates nothing. -/
def mgrid : Grid := ⟨[0], [0, 1/20], [[some 10, some 1]], [some 100]⟩

/-- **C8** (refutation): on `mgrid` with `filter_val = 5` the only exceedance
sits at altitude `0`, the bin at altitude `0.05 ≤ 0 + 0.1` therefore lies at
or below the cutoff the claim prescribes, yet `truncate_below_max_value`
leaves its extinction value `1` in place (the code ignores exceedances at
non-positive altitudes). -/
theorem truncate_below_max_value_claim_refuted :
    extGe ((mgrid.extinction.getD 0 []).getD 0 none) 5 = true ∧
    mgrid.altitude.getD 0 0 = 0 ∧
    extGe ((mgrid.extinction.getD 0 []).getD 1 none) 5 = false ∧
    mgrid.altitude.getD 1 0 ≤ 0 + 1/10 ∧
    ((truncate_below_max_value mgrid 5).extinction.getD 0 []).getD 1 none = some 1 := by
  with_unfolding_all decide

/-- The cutoff as amended: the highest **positive** altitude at which
`extinction >= filter_val`, plus the `0.1` km margin; `0` when no bin at
positive altitude exceeds the filter value. -/
def amendedCutoff (altitude : List ℚ) (row : List (Option ℚ)) (filter_val : ℚ) : ℚ :=
  match (((altitude.zip row).filter
      (fun p => extGe p.2 filter_val && decide (p.1 > 0))).map Prod.fst).max? with
  | none => 0
  | some m => m + 1/10

lemma cutoff_filter_eq (fval : ℚ) (row : List (Option ℚ)) (altitude : List ℚ) :
    (List.zipWith (fun v alt => if extGe v fval then alt else 0) row altitude).filter
        (fun x => decide (x > 0)) =
      ((altitude.zip row).filter
        (fun p => extGe p.2 fval && decide (p.1 > 0))).map Prod.fst := by
  induction row generalizing altitude with
  | nil => simp
  | cons v rest ih =>
    cases altitude with
    | nil => simp
    | cons alt alts =>
      simp only [List.zipWith_cons_cons, List.zip_cons_cons, List.filter_cons]
      by_cases hv : extGe v fval = true
      · by_cases halt : (0 : ℚ) < alt
        · simp [hv, halt, ih]
        · simp [hv, halt, if_neg, ih]
      · simp only [Bool.not_eq_true] at hv
        simp [hv, ih]

/-- **C8** (amended): `truncate_below_max_value(grid, filter_val)` computes,
for each profile, the highest **positive** altitude at which
`extinction >= filter_val` plus a `0.1` km margin as that profile's cutoff
(cutoff `0.0` when there is no exceedance at positive altitude), and nulls
out all extinction at or below the cutoff; in particular a profile with no
sample exceeding `filter_val`, on a grid with all altitudes above `0` km,
has its extinction values unchanged. -/
theorem truncate_below_max_value_amended (g : Grid) (fval : ℚ) (t a : ℕ)
    (ht : t < g.extinction.length)
    (ha : a < (g.extinction.getD t []).length) (ha2 : a < g.altitude.length) :
    cutoffOf g.altitude (g.extinction.getD t []) fval =
      amendedCutoff g.altitude (g.extinction.getD t []) fval ∧
    ((truncate_below_max_value g fval).extinction.getD t []).getD a none =
      (if g.altitude.getD a 0 >
          amendedCutoff g.altitude (g.extinction.getD t []) fval
        then (g.extinction.getD t []).getD a none else none) ∧
    ((∀ v ∈ g.extinction.getD t [], extGe v fval = false) →
      0 < g.altitude.getD a 0 →
      ((truncate_below_max_value g fval).extinction.getD t []).getD a none =
        (g.extinction.getD t []).getD a none) := by
  have hcut : cutoffOf g.altitude (g.extinction.getD t []) fval =
      amendedCutoff g.altitude (g.extinction.getD t []) fval := by
    unfold cutoffOf amendedCutoff
    simp only [cutoff_filter_eq]
  have hcell : ((truncate_below_max_value g fval).extinction.getD t []).getD a none =
      (if g.altitude.getD a 0 >
          amendedCutoff g.altitude (g.extinction.getD t []) fval
        then (g.extinction.getD t []).getD a none else none) := by
    rw [List.getD_eq_getElem _ _ ht] at ha
    have hcut2 := hcut
    rw [List.getD_eq_getElem _ _ ht] at hcut2
    rw [List.getD_eq_getElem _ _ ha2]
    conv_rhs => rw [List.getD_eq_getElem _ _ ht, List.getD_eq_getElem _ _ ha]
    rw [← hcut2]
    unfold truncate_below_max_value
    have hlen : t < (g.extinction.map
        (fun row =>
          let minAlt := cutoffOf g.altitude row fval
          List.zipWith (fun v alt => if decide (alt > minAlt) then v else none)
            row g.altitude)).length := by
      simpa using ht
    rw [List.getD_eq_getElem _ _ hlen, List.getElem_map]
    have hlen2 : a < (List.zipWith
        (fun v alt =>
          if decide (alt > cutoffOf g.altitude (g.extinction[t]) fval) = true
          then v else none)
        (g.extinction[t]) g.altitude).length := by
      simp [List.length_zipWith]; omega
    rw [List.getD_eq_getElem _ _ hlen2, List.getElem_zipWith]
    by_cases hgt : g.altitude[a] > cutoffOf g.altitude (g.extinction[t]) fval
    · rw [if_pos (by rw [decide_eq_true_eq]; exact hgt), if_pos hgt]
    · rw [if_neg (by rw [decide_eq_true_eq]; exact hgt), if_neg hgt]
  refine ⟨hcut, hcell, fun hno hpos => ?_⟩
  have hzero : amendedCutoff g.altitude (g.extinction.getD t []) fval = 0 := by
    unfold amendedCutoff
    have : (g.altitude.zip (g.extinction.getD t [])).filter
        (fun p => extGe p.2 fval && decide (p.1 > 0)) = [] := by
      rw [List.filter_eq_nil_iff]
      intro p hp
      have hmem := List.of_mem_zip hp
      simp [hno p.2 hmem.2]
    rw [this]
    simp
  rw [hcell, hzero, if_pos hpos]

theorem truncate_below_max_value_amended_witness :
    cutoffOf wgrid.altitude (wgrid.extinction.getD 1 []) 4 =
      amendedCutoff wgrid.altitude (wgrid.extinction.getD 1 []) 4 ∧
    ((truncate_below_max_value wgrid 4).extinction.getD 1 []).getD 0 none = none := by
  have h := truncate_below_max_value_amended wgrid 4 1 0
    (by with_unfolding_all decide) (by with_unfolding_all decide)
    (by with_unfolding_all decide)
  refine ⟨h.1, ?_⟩
  rw [h.2.1, if_neg (by with_unfolding_all decide)]



/-! ## Degenerate-input lemmas -/

lemma trapz_all_zero (profile : List (ℚ × Option ℚ))
    (h : ∀ p ∈ profile, p.2 = some 0) : trapz profile = some 0 := by
  have hterm : ∀ x ∈ trapTerms profile, x = some 0 := by
    intro x hx
    unfold trapTerms at hx
    rcases List.mem_map.1 hx with ⟨pq, hpq, hval⟩
    rcases List.of_mem_zip hpq with ⟨h1, h2⟩
    rw [h pq.1 h1, h pq.2 (List.mem_of_mem_tail h2)] at hval
    rw [← hval]
    unfold trapVal
    norm_num
  unfold trapz
  rw [if_neg]
  · congr 1
    apply List.sum_eq_zero
    intro x hx
    rcases List.mem_filterMap.1 hx with ⟨a, ha, hid⟩
    have h0 := hterm a ha
    rw [h0] at hid
    simpa using hid.symm
  · rw [Bool.not_eq_true, List.any_eq_false]
    intro x hx
    rw [hterm x hx]
    simp

lemma nanmean_all_zero (xs : List (Option ℚ)) (h : ∀ x ∈ xs, x = some 0)
    (hne : xs ≠ []) : nanmean xs = some 0 := by
  unfold nanmean
  rcases xs with _ | ⟨y, ys⟩
  · exact absurd rfl hne
  · have hy := h y (List.mem_cons_self y ys)
    rw [if_neg]
    · congr 1
      rw [List.sum_eq_zero, zero_div]
      intro x hx
      rcases List.mem_filterMap.1 hx with ⟨a, ha, hid⟩
      rw [h a ha] at hid
      simpa using hid.symm
    · rw [hy]
      simp [List.filterMap_cons]

lemma nanmean_all_none (xs : List (Option ℚ)) (h : ∀ x ∈ xs, x = none) :
    nanmean xs = none := by
  unfold nanmean
  have : xs.filterMap id = [] := by
    rw [List.filterMap_eq_nil_iff]
    intro a ha
    rw [h a ha]
    rfl
  rw [this]
  simp

lemma dropNonpos_all_none (profile : List (ℚ × Option ℚ))
    (h : ∀ p ∈ profile, p.2 = none) : dropNonpos profile = [] := by
  unfold dropNonpos
  rw [List.filter_eq_nil_iff]
  intro p hp
  rw [h p hp]
  simp

lemma tropCond_nanmean_false (xs : List (Option ℚ)) (km alt : ℚ)
    (h : ∀ x ∈ xs, tropCond x km alt = false) :
    tropCond (nanmean xs) km alt = false := by
  cases hm : nanmean xs with
  | none => simp [tropCond]
  | some m =>
    simp only [tropCond, decide_eq_false_iff_not, not_lt]
    unfold nanmean at hm
    by_cases hlen : (xs.filterMap id).length = 0
    · rw [if_pos hlen] at hm; exact absurd hm (by simp)
    · rw [if_neg hlen] at hm
      have hm2 : (xs.filterMap id).sum / ((xs.filterMap id).length : ℚ) = m := by
        simpa using hm
      have hlb : ∀ v ∈ xs.filterMap id, alt - km ≤ v := by
        intro v hv
        rcases List.mem_filterMap.1 hv with ⟨a, ha, hid⟩
        have := h a ha
        rw [show a = some v by simpa using hid] at this
        simp only [tropCond, decide_eq_false_iff_not, not_lt] at this
        linarith
      have hpos : (0 : ℚ) < ((xs.filterMap id).length : ℚ) := by
        have : 0 < (xs.filterMap id).length := Nat.pos_of_ne_zero hlen
        exact_mod_cast this
      have hsum : ((xs.filterMap id).length : ℚ) * (alt - km) ≤ (xs.filterMap id).sum := by
        have hn := List.card_nsmul_le_sum (l := xs.filterMap id) (n := alt - km) hlb
        simpa [nsmul_eq_mul] using hn
      have : alt - km ≤ m := by
        rw [← hm2, le_div_iff₀ hpos]
        linarith
      linarith

lemma trapz_nil : trapz [] = some 0 := by
  simp [trapz, trapTerms]

lemma column_replicate (T n a : ℕ) (c : Option ℚ) (ha : a < n) :
    column (List.replicate T (List.replicate n c)) a = List.replicate T c := by
  unfold column
  rw [List.map_replicate]
  congr 1
  rw [List.getD_eq_getElem _ _ (by simpa using ha), List.getElem_replicate]

lemma truncate_all_false_ext (g : Grid) (km : ℚ) (fv : Option ℚ)
    (hrows : ∀ row ∈ g.extinction, row.length = g.altitude.length)
    (hlen : g.extinction.length ≤ g.tropopause_altitude.length)
    (hexc : ∀ t a, t < g.tropopause_altitude.length → a < g.altitude.length →
      tropCond (g.tropopause_altitude.getD t none) km (g.altitude.getD a 0) = false) :
    (truncate_below_tropopause g km fv).extinction =
      List.replicate g.extinction.length (List.replicate g.altitude.length fv) := by
  unfold truncate_below_tropopause
  apply List.ext_getElem
  · simp [List.length_zipWith]; omega
  · intro i h1 h2
    rw [List.getElem_zipWith, List.getElem_replicate]
    have hi1 : i < g.extinction.length := by
      simp [List.length_zipWith] at h1; omega
    have hi2 : i < g.tropopause_altitude.length := by
      simp [List.length_zipWith] at h1; omega
    have hr := hrows (g.extinction[i]) (List.getElem_mem hi1)
    apply List.ext_getElem
    · simp [List.length_zipWith, hr]
    · intro a ha1 ha2
      rw [List.getElem_zipWith, List.getElem_replicate]
      have hc := hexc i a hi2 (by simpa using ha2)
      rw [List.getD_eq_getElem _ _ hi2, List.getD_eq_getElem _ _ (by simpa using ha2)] at hc
      simp [hc]

lemma mask_all_false_ext (ext : List (List (Option ℚ))) (alts : List ℚ)
    (mt : Option ℚ) (km : ℚ)
    (hrows : ∀ row ∈ ext, row.length = alts.length)
    (hc : ∀ a, a < alts.length → tropCond mt km (alts.getD a 0) = false) :
    ext.map (fun row =>
        List.zipWith (fun v alt => if tropCond mt km alt then v else none) row alts) =
      List.replicate ext.length (List.replicate alts.length none) := by
  apply List.ext_getElem
  · simp
  · intro i h1 h2
    rw [List.getElem_map, List.getElem_replicate]
    have hi1 : i < ext.length := by simpa using h1
    have hr := hrows (ext[i]) (List.getElem_mem hi1)
    apply List.ext_getElem
    · simp [List.length_zipWith, hr]
    · intro a ha1 ha2
      rw [List.getElem_zipWith, List.getElem_replicate]
      have hca := hc a (by simpa using ha2)
      rw [List.getD_eq_getElem _ _ (by simpa using ha2)] at hca
      simp [hca]

/-- A fully-degenerate grid: both profiles have tropopause 20 km, above both
altitude bins, so every cell is at or below the shifted boundary. -/
def dgrid : Grid :=
  ⟨[0, 1], [21/2, 23/2], [[some 1, some 1], [some 1, some 1]], [some 20, some 20]⟩

/-- **C4** (refutation of the stated degenerate value): on `dgrid` every
sample of every profile is excluded by the truncation condition
(tropopause 20 km, bins 10.5 and 11.5 km, `max_alt_km = 15`), yet all four
estimators return the scalar `0.0`, i.e. `some 0` — not NaN (`none`) and not
an empty result as the claim states. -/
theorem estimator_degenerate_not_nan_or_empty :
    tropCond (dgrid.tropopause_altitude.getD 0 none) 0 (dgrid.altitude.getD 0 0) = false ∧
    tropCond (dgrid.tropopause_altitude.getD 0 none) 0 (dgrid.altitude.getD 1 0) = false ∧
    tropCond (dgrid.tropopause_altitude.getD 1 none) 0 (dgrid.altitude.getD 0 0) = false ∧
    tropCond (dgrid.tropopause_altitude.getD 1 none) 0 (dgrid.altitude.getD 1 0) = false ∧
    (calculate_aod_cdf_tropopause dgrid 15 0).1 = some 0 ∧
    (calculate_aod_mean_tropopause dgrid 15 0).1 = some 0 ∧
    (calculate_aod_local_tropopause dgrid 15 0).1 = some 0 ∧
    (calculate_aod_per_profile dgrid 15 0).1 = some 0 := by
  with_unfolding_all decide

lemma forall2_map {α β : Type} (l : List α) (f f' : α → β) (R : β → β → Prop)
    (h : ∀ x ∈ l, R (f x) (f' x)) : List.Forall₂ R (l.map f) (l.map f') := by
  induction l with
  | nil => simp
  | cons x xs ih =>
    simp only [List.map_cons]
    exact List.Forall₂.cons (h x (by simp))
      (ih (fun y hy => h y (by simp [hy])))

lemma selAlt_congr {p q : List (ℚ × Option ℚ)} (m : ℚ)
    (hpq : List.Forall₂ (fun x y => x.1 = y.1 ∧ (0 ≤ x.1 → x = y)) p q) :
    selAlt p m = selAlt q m := by
  induction hpq with
  | nil => rfl
  | @cons x y xs ys hxy _ ih =>
    unfold selAlt at ih ⊢
    simp only [List.filter_cons]
    by_cases h0 : (0 : ℚ) ≤ x.1
    · rw [hxy.2 h0, ih]
    · have hy0 : ¬ (0:ℚ) ≤ y.1 := by rw [← hxy.1]; exact h0
      simp [h0, hy0, ih]

lemma mask_cell_eq (ext : List (List (Option ℚ))) (alts : List ℚ) (mt : Option ℚ)
    (km : ℚ) (t a : ℕ) (ht : t < ext.length)
    (ha : a < (ext.getD t []).length) (ha2 : a < alts.length) :
    (((ext.map (fun row =>
        List.zipWith (fun v alt => if tropCond mt km alt then v else none)
          row alts)).getD t []).getD a none) =
      (if tropCond mt km (alts.getD a 0) then (ext.getD t []).getD a none
       else none) := by
  rw [List.getD_eq_getElem _ _ ht] at ha
  rw [List.getD_eq_getElem _ _ ht, List.getD_eq_getElem _ _ ha,
    List.getD_eq_getElem _ _ ha2]
  have hlen : t < (ext.map (fun row =>
      List.zipWith (fun v alt => if tropCond mt km alt then v else none)
        row alts)).length := by simpa using ht
  rw [List.getD_eq_getElem _ _ hlen, List.getElem_map]
  have hlen2 : a < (List.zipWith
      (fun v alt => if tropCond mt km alt then v else none)
      (ext[t]) alts).length := by
    simp [List.length_zipWith]; omega
  rw [List.getD_eq_getElem _ _ hlen2, List.getElem_zipWith]

lemma column_ext_eq (E E' : List (List (Option ℚ))) (a : ℕ)
    (hlen : E'.length = E.length)
    (hc : ∀ t, t < E.length → (E'.getD t []).getD a none = (E.getD t []).getD a none) :
    column E' a = column E a := by
  unfold column
  apply List.ext_getElem
  · simpa using hlen
  · intro i h1 h2
    rw [List.getElem_map, List.getElem_map]
    have hi : i < E.length := by simpa using h2
    have hi' : i < E'.length := by simpa using h1
    have := hc i hi
    rw [List.getD_eq_getElem _ _ hi', List.getD_eq_getElem _ _ hi] at this
    exact this

lemma meanOverTime_ptwise (d' d : Grid) (halt2 : d'.altitude = d.altitude)
    (hcol : ∀ a, a < d.altitude.length → 0 ≤ d.altitude.getD a 0 →
      nanmean (column d'.extinction a) = nanmean (column d.extinction a)) :
    List.Forall₂ (fun x y => x.1 = y.1 ∧ (0 ≤ x.1 → x = y))
      (meanOverTime d') (meanOverTime d) := by
  unfold meanOverTime
  rw [halt2]
  apply forall2_map
  intro a ha
  have ha' := List.mem_range.1 ha
  exact ⟨rfl, fun h0 => by rw [hcol a ha' h0]⟩

lemma zip_forall2 (alts : List ℚ) (r' r : List (Option ℚ))
    (hlen : r'.length = r.length)
    (hc : ∀ i, i < r.length → i < alts.length → 0 ≤ alts.getD i 0 →
      r'.getD i none = r.getD i none) :
    List.Forall₂ (fun x y => x.1 = y.1 ∧ (0 ≤ x.1 → x = y))
      (alts.zip r') (alts.zip r) := by
  rw [List.forall₂_iff_get]
  refine ⟨by simp [List.length_zip, hlen], ?_⟩
  intro i h1 h2
  simp only [List.get_eq_getElem, List.getElem_zip]
  have hi1 : i < alts.length := by simp [List.length_zip] at h1; omega
  have hir' : i < r'.length := by simp [List.length_zip] at h1; omega
  have hir : i < r.length := by simp [List.length_zip] at h2; omega
  refine ⟨by trivial, fun h0 => ?_⟩
  have := hc i hir hi1 (by rwa [List.getD_eq_getElem _ _ hi1])
  rw [List.getD_eq_getElem _ _ hir', List.getD_eq_getElem _ _ hir] at this
  rw [this]

lemma truncate_row_len (g : Grid) (km : ℚ) (fv : Option ℚ) (i : ℕ)
    (hi : i < g.extinction.length) (hit : i < g.tropopause_altitude.length) :
    ((truncate_below_tropopause g km fv).extinction.getD i []).length =
      min (g.extinction.getD i []).length g.altitude.length := by
  unfold truncate_below_tropopause
  have h1 : i < (List.zipWith
      (fun row trop => List.zipWith
        (fun v alt => if tropCond trop km alt then v else fv) row g.altitude)
      g.extinction g.tropopause_altitude).length := by
    simp [List.length_zipWith]; omega
  rw [List.getD_eq_getElem _ _ h1, List.getElem_zipWith, List.length_zipWith,
    List.getD_eq_getElem _ _ hi]

/-- **C10**: the altitude selection of all four estimators is two-sided,
`0 ≤ altitude ≤ max_alt_km`: two well-formed grids that agree everywhere
except in extinction values at negative-altitude bins produce identical
results for all four estimators, whatever the tropopause — the
negative-altitude bins are excluded from the integral and from the means
that feed it. -/
theorem estimators_exclude_negative_altitudes (g g' : Grid) (max_alt_km km_above : ℚ)
    (hwf : WF g) (hwf' : WF g')
    (htime : g'.time = g.time)
    (halt : g'.altitude = g.altitude)
    (htrop : g'.tropopause_altitude = g.tropopause_altitude)
    (hcells : ∀ t < g.extinction.length, ∀ a < g.altitude.length,
      0 ≤ g.altitude.getD a 0 →
      (g'.extinction.getD t []).getD a none = (g.extinction.getD t []).getD a none) :
    (calculate_aod_cdf_tropopause g' max_alt_km km_above).1 =
      (calculate_aod_cdf_tropopause g max_alt_km km_above).1 ∧
    (calculate_aod_mean_tropopause g' max_alt_km km_above).1 =
      (calculate_aod_mean_tropopause g max_alt_km km_above).1 ∧
    (calculate_aod_local_tropopause g' max_alt_km km_above).1 =
      (calculate_aod_local_tropopause g max_alt_km km_above).1 ∧
    (calculate_aod_per_profile g' max_alt_km km_above).1 =
      (calculate_aod_per_profile g max_alt_km km_above).1 := by
  obtain ⟨hT, hTt, hrows, hpos, hsort⟩ := hwf
  obtain ⟨hT', hTt', hrows', hpos', hsort'⟩ := hwf'
  have hTT : g'.extinction.length = g.extinction.length := by
    rw [hT', htime, ← hT]
  have hn : g'.altitude.length = g.altitude.length := by rw [halt]
  have htlen : ∀ fv, (truncate_below_tropopause g km_above fv).extinction.length =
      g.extinction.length := by
    intro fv
    simp only [truncate_below_tropopause, List.length_zipWith]
    omega
  have htlen' : ∀ fv, (truncate_below_tropopause g' km_above fv).extinction.length =
      g'.extinction.length := by
    intro fv
    simp only [truncate_below_tropopause, List.length_zipWith]
    omega
  have htruncCell : ∀ (fv : Option ℚ) t a, t < g.extinction.length →
      a < g.altitude.length → 0 ≤ g.altitude.getD a 0 →
      ((truncate_below_tropopause g' km_above fv).extinction.getD t []).getD a none =
      ((truncate_below_tropopause g km_above fv).extinction.getD t []).getD a none := by
    intro fv t a ht ha h0
    have ht' : t < g'.extinction.length := by omega
    have htr2 : t < g.tropopause_altitude.length := by omega
    have htr2' : t < g'.tropopause_altitude.length := by omega
    have hrg : (g.extinction.getD t []).length = g.altitude.length := by
      rw [List.getD_eq_getElem _ _ ht]; exact hrows _ (List.getElem_mem ht)
    have hrg' : (g'.extinction.getD t []).length = g'.altitude.length := by
      rw [List.getD_eq_getElem _ _ ht']; exact hrows' _ (List.getElem_mem ht')
    rw [truncate_cell_eq g' km_above fv t a ht' htr2'
      (by rw [hrg']; omega) (by omega)]
    rw [truncate_cell_eq g km_above fv t a ht htr2 (by rw [hrg]; exact ha) ha]
    rw [htrop, halt, hcells t ht a ha h0]
  have hmot : ∀ fv, List.Forall₂ (fun x y => x.1 = y.1 ∧ (0 ≤ x.1 → x = y))
      (meanOverTime (truncate_below_tropopause g' km_above fv))
      (meanOverTime (truncate_below_tropopause g km_above fv)) := by
    intro fv
    apply meanOverTime_ptwise _ _
      (show (truncate_below_tropopause g' km_above fv).altitude =
        (truncate_below_tropopause g km_above fv).altitude from halt)
    intro a ha h0
    have ha2 : a < g.altitude.length := ha
    have h02 : 0 ≤ g.altitude.getD a 0 := h0
    apply congrArg
    apply column_ext_eq
    · rw [htlen' fv, htlen fv, hTT]
    · intro t ht
      have ht2 : t < g.extinction.length := by rw [htlen fv] at ht; exact ht
      exact htruncCell fv t a ht2 ha2 h02
  refine ⟨?_, ?_, ?_, ?_⟩
  · show trapz (selAlt (meanOverTime
        (truncate_below_tropopause g' km_above (some 0))) max_alt_km) =
      trapz (selAlt (meanOverTime
        (truncate_below_tropopause g km_above (some 0))) max_alt_km)
    rw [selAlt_congr max_alt_km (hmot (some 0))]
  · show trapz (dropNonpos (selAlt (meanOverTime
        ({ g' with extinction := g'.extinction.map (fun row =>
          List.zipWith (fun v alt =>
            if tropCond (nanmean g'.tropopause_altitude) km_above alt then v else none)
            row g'.altitude) } : Grid)) max_alt_km)) =
      trapz (dropNonpos (selAlt (meanOverTime
        ({ g with extinction := g.extinction.map (fun row =>
          List.zipWith (fun v alt =>
            if tropCond (nanmean g.tropopause_altitude) km_above alt then v else none)
            row g.altitude) } : Grid)) max_alt_km))
    rw [selAlt_congr max_alt_km (meanOverTime_ptwise
      ({ g' with extinction := g'.extinction.map (fun row =>
        List.zipWith (fun v alt =>
          if tropCond (nanmean g'.tropopause_altitude) km_above alt then v else none)
          row g'.altitude) } : Grid)
      ({ g with extinction := g.extinction.map (fun row =>
        List.zipWith (fun v alt =>
          if tropCond (nanmean g.tropopause_altitude) km_above alt then v else none)
          row g.altitude) } : Grid) halt ?_)]
    intro a ha h0
    have ha2 : a < g.altitude.length := ha
    have h02 : 0 ≤ g.altitude.getD a 0 := h0
    apply congrArg
    apply column_ext_eq
    · simpa using hTT
    · intro t ht
      have ht2 : t < g.extinction.length := by simpa using ht
      have ht2' : t < g'.extinction.length := by omega
      have hrg : a < (g.extinction.getD t []).length := by
        rw [List.getD_eq_getElem _ _ ht2, hrows _ (List.getElem_mem ht2)]; exact ha2
      have hrg' : a < (g'.extinction.getD t []).length := by
        rw [List.getD_eq_getElem _ _ ht2', hrows' _ (List.getElem_mem ht2')]; omega
      rw [mask_cell_eq g'.extinction g'.altitude (nanmean g'.tropopause_altitude)
        km_above t a ht2' hrg' (by omega)]
      rw [mask_cell_eq g.extinction g.altitude (nanmean g.tropopause_altitude)
        km_above t a ht2 hrg ha2]
      rw [htrop, halt, hcells t ht2 a ha2 h02]
  · show trapz (dropNonpos (selAlt (meanOverTime
        (truncate_below_tropopause g' km_above none)) max_alt_km)) =
      trapz (dropNonpos (selAlt (meanOverTime
        (truncate_below_tropopause g km_above none)) max_alt_km))
    rw [selAlt_congr max_alt_km (hmot none)]
  · show nanmean ((truncate_below_tropopause g' km_above none).extinction.map
        (fun row => trapz (fillna (selAlt (g'.altitude.zip row) max_alt_km) 0))) =
      nanmean ((truncate_below_tropopause g km_above none).extinction.map
        (fun row => trapz (fillna (selAlt (g.altitude.zip row) max_alt_km) 0)))
    rw [halt]
    apply congrArg
    apply List.ext_getElem
    · simp only [List.length_map]
      rw [htlen' none, htlen none, hTT]
    · intro i h1 h2
      rw [List.getElem_map, List.getElem_map]
      have hi : i < g.extinction.length := by
        simp only [List.length_map] at h2; rw [htlen none] at h2; exact h2
      have hi' : i < g'.extinction.length := by omega
      have hitr : i < (truncate_below_tropopause g km_above none).extinction.length := by
        rw [htlen none]; exact hi
      have hitr' : i < (truncate_below_tropopause g' km_above none).extinction.length := by
        rw [htlen' none]; exact hi'
      have hrl : ((truncate_below_tropopause g km_above none).extinction.getD i []).length =
          g.altitude.length := by
        rw [truncate_row_len g km_above none i hi (by omega),
          List.getD_eq_getElem _ _ hi, hrows _ (List.getElem_mem hi)]
        exact Nat.min_self _
      have hrl' : ((truncate_below_tropopause g' km_above none).extinction.getD i []).length =
          g'.altitude.length := by
        rw [truncate_row_len g' km_above none i hi' (by omega),
          List.getD_eq_getElem _ _ hi', hrows' _ (List.getElem_mem hi')]
        exact Nat.min_self _
      rw [selAlt_congr max_alt_km (zip_forall2 g.altitude _ _ ?_ ?_)]
      · rw [List.getD_eq_getElem _ _ hitr'] at hrl'
        rw [List.getD_eq_getElem _ _ hitr] at hrl
        rw [hrl', hrl, hn]
      · intro j hj hj2 h0j
        have := htruncCell none i j hi (by
          rw [List.getD_eq_getElem _ _ hitr] at hrl
          rw [hrl] at hj
          exact hj) h0j
        rw [List.getD_eq_getElem _ _ hitr', List.getD_eq_getElem _ _ hitr] at this
        exact this

/-- One profile with a bin at the negative altitude `-2` km. -/
def ngrid : Grid := ⟨[0], [-2, 5, 20], [[some 7, some 1, some 1]], [some 3]⟩

/-- Same grid as `ngrid` apart from the extinction value at the
negative-altitude bin. -/
def ngrid2 : Grid := ⟨[0], [-2, 5, 20], [[some 9, some 1, some 1]], [some 3]⟩

theorem estimators_exclude_negative_altitudes_witness :
    (calculate_aod_cdf_tropopause ngrid2 35 0).1 =
      (calculate_aod_cdf_tropopause ngrid 35 0).1 ∧
    (calculate_aod_mean_tropopause ngrid2 35 0).1 =
      (calculate_aod_mean_tropopause ngrid 35 0).1 ∧
    (calculate_aod_local_tropopause ngrid2 35 0).1 =
      (calculate_aod_local_tropopause ngrid 35 0).1 ∧
    (calculate_aod_per_profile ngrid2 35 0).1 =
      (calculate_aod_per_profile ngrid 35 0).1 :=
  estimators_exclude_negative_altitudes ngrid ngrid2 35 0
    (by with_unfolding_all decide) (by with_unfolding_all decide)
    rfl rfl rfl (by with_unfolding_all decide)


/-! ## Pure trapezoid machinery for the coverage claim -/

/-- Pure (NaN-free) trapezoidal rule on a labelled profile. -/
def trapzQ (u : List (ℚ × ℚ)) : ℚ :=
  ((u.zip u.tail).map
    (fun pq => (pq.2.1 - pq.1.1) * (pq.1.2 + pq.2.2) / 2)).sum

/-- Pointwise sum of the values of two labelled profiles (labels from the
first). -/
def sumSnd (u v : List (ℚ × ℚ)) : List (ℚ × ℚ) :=
  List.zipWith (fun p q => (p.1, p.2 + q.2)) u v

/-- Embed a pure profile into the NaN-aware representation. -/
def toSomeProf (u : List (ℚ × ℚ)) : List (ℚ × Option ℚ) :=
  u.map (fun p => (p.1, some p.2))

/-- Pointwise column sums of a rectangular stack of pure rows. -/
def colSums (n : ℕ) (rows : List (List ℚ)) : List ℚ :=
  rows.foldr (List.zipWith (· + ·)) (List.replicate n 0)

lemma trapzQ_cons_cons (x y : ℚ × ℚ) (l : List (ℚ × ℚ)) :
    trapzQ (x :: y :: l) = (y.1 - x.1) * (x.2 + y.2) / 2 + trapzQ (y :: l) := by
  simp [trapzQ]

lemma trapz_toSomeProf (u : List (ℚ × ℚ)) : trapz (toSomeProf u) = some (trapzQ u) := by
  have hterms : trapTerms (toSomeProf u) =
      ((u.zip u.tail).map
        (fun pq => (pq.2.1 - pq.1.1) * (pq.1.2 + pq.2.2) / 2)).map some := by
    unfold trapTerms toSomeProf
    rw [← List.map_tail, List.zip_map, List.map_map, List.map_map]
    apply List.map_congr_left
    intro pq _
    simp [trapVal]
  unfold trapz
  rw [hterms]
  rw [if_neg]
  · rw [List.filterMap_map]
    simp only [Function.comp_def, id_eq]
    rw [List.filterMap_some]
    rfl
  · simp

lemma trapzQ_all_zero (u : List (ℚ × ℚ)) (h : ∀ p ∈ u, p.2 = 0) :
    trapzQ u = 0 := by
  unfold trapzQ
  apply List.sum_eq_zero
  intro x hx
  rcases List.mem_map.1 hx with ⟨pq, hpq, hval⟩
  rcases List.of_mem_zip hpq with ⟨h1, h2⟩
  rw [h pq.1 h1, h pq.2 (List.mem_of_mem_tail h2)] at hval
  rw [← hval]
  ring

lemma trapzQ_sumSnd (u : List (ℚ × ℚ)) : ∀ (v : List (ℚ × ℚ)),
    u.map Prod.fst = v.map Prod.fst →
    trapzQ (sumSnd u v) = trapzQ u + trapzQ v := by
  induction u with
  | nil =>
    intro v h
    have hv : v = [] := by
      have := congrArg List.length h
      simpa using List.eq_nil_of_length_eq_zero (by simpa using this.symm)
    subst hv
    simp [sumSnd, trapzQ]
  | cons p u ih =>
    intro v h
    cases v with
    | nil => simp at h
    | cons q v' =>
      simp only [List.map_cons, List.cons.injEq] at h
      obtain ⟨h1, h2⟩ := h
      cases u with
      | nil =>
        have hv' : v' = [] := by
          have := congrArg List.length h2
          simpa using List.eq_nil_of_length_eq_zero (by simpa using this.symm)
        subst hv'
        simp [sumSnd, trapzQ]
      | cons p' u2 =>
        cases v' with
        | nil => simp at h2
        | cons q' v2 =>
          simp only [List.map_cons, List.cons.injEq] at h2
          obtain ⟨h21, h22⟩ := h2
          have ih2 := ih (q' :: v2) (by simp [h21, h22])
          have hs : sumSnd (p :: p' :: u2) (q :: q' :: v2) =
              (p.1, p.2 + q.2) :: sumSnd (p' :: u2) (q' :: v2) := rfl
          have hs2 : sumSnd (p' :: u2) (q' :: v2) =
              (p'.1, p'.2 + q'.2) :: sumSnd u2 v2 := rfl
          rw [hs, hs2, trapzQ_cons_cons, ← hs2, ih2, trapzQ_cons_cons,
            trapzQ_cons_cons]
          rw [← h1, ← h21]
          ring

lemma trapzQ_scaleSnd (c : ℚ) (u : List (ℚ × ℚ)) :
    trapzQ (u.map (fun p => (p.1, p.2 / c))) = trapzQ u / c := by
  unfold trapzQ
  rw [← List.map_tail, List.zip_map, List.map_map]
  have : ∀ (l : List ℚ), (l.map (· / c)).sum = l.sum / c := by
    intro l
    induction l with
    | nil => simp
    | cons x xs ih => simp [ih, add_div]
  rw [← this, List.map_map]
  apply congrArg
  apply List.map_congr_left
  intro pq _
  simp only [Function.comp_def, Prod.map]
  ring

lemma filter_zip_add (pf : ℚ → Bool) : ∀ (alts r s : List ℚ), r.length = s.length →
    (alts.zip (List.zipWith (· + ·) r s)).filter (fun p => pf p.1) =
      sumSnd ((alts.zip r).filter (fun p => pf p.1))
        ((alts.zip s).filter (fun p => pf p.1)) := by
  intro alts
  induction alts with
  | nil => intro r s _; simp [sumSnd]
  | cons a as ih =>
    intro r s hlen
    cases r with
    | nil =>
      have : s = [] := List.eq_nil_of_length_eq_zero (by simpa using hlen.symm)
      subst this; simp [sumSnd]
    | cons x r' =>
      cases s with
      | nil => simp at hlen
      | cons y s' =>
        have hlen' : r'.length = s'.length := by simpa using hlen
        simp only [List.zipWith_cons_cons, List.zip_cons_cons, List.filter_cons]
        by_cases hp : pf a = true
        · simp only [hp, if_pos]
          have : sumSnd ((a, x) :: (as.zip r').filter (fun p => pf p.1))
              ((a, y) :: (as.zip s').filter (fun p => pf p.1)) =
              (a, x + y) :: sumSnd ((as.zip r').filter (fun p => pf p.1))
                ((as.zip s').filter (fun p => pf p.1)) := rfl
          rw [this, ih r' s' hlen']
        · simp only [hp]
          simp only [Bool.false_eq_true, if_false]
          exact ih r' s' hlen'

lemma filter_zip_fst (pf : ℚ → Bool) : ∀ (alts r s : List ℚ), r.length = s.length →
    (((alts.zip r).filter (fun p => pf p.1)).map Prod.fst) =
      (((alts.zip s).filter (fun p => pf p.1)).map Prod.fst) := by
  intro alts
  induction alts with
  | nil => intro r s _; simp
  | cons a as ih =>
    intro r s hlen
    cases r with
    | nil =>
      have : s = [] := List.eq_nil_of_length_eq_zero (by simpa using hlen.symm)
      subst this; simp
    | cons x r' =>
      cases s with
      | nil => simp at hlen
      | cons y s' =>
        have hlen' : r'.length = s'.length := by simpa using hlen
        simp only [List.zip_cons_cons, List.filter_cons]
        by_cases hp : pf a = true
        · simp only [hp, if_pos, List.map_cons]
          rw [ih r' s' hlen']
        · simp only [hp, Bool.false_eq_true, if_false]
          exact ih r' s' hlen'

lemma colSums_length (n : ℕ) : ∀ (rows : List (List ℚ)),
    (∀ r ∈ rows, r.length = n) → (colSums n rows).length = n := by
  intro rows
  induction rows with
  | nil => intro _; simp [colSums]
  | cons r rest ih =>
    intro h
    show (List.zipWith (· + ·) r (colSums n rest)).length = n
    rw [List.length_zipWith, h r (by simp),
      ih (fun x hx => h x (by simp [hx]))]
    exact Nat.min_self n

lemma colSums_getD (n : ℕ) : ∀ (rows : List (List ℚ)) (a : ℕ),
    (∀ r ∈ rows, r.length = n) → a < n →
    (colSums n rows).getD a 0 = (rows.map (fun r => r.getD a 0)).sum := by
  intro rows
  induction rows with
  | nil =>
    intro a _ ha
    show (List.replicate n (0:ℚ)).getD a 0 = _
    rw [List.getD_eq_getElem _ _ (by simpa using ha), List.getElem_replicate]
    simp
  | cons r rest ih =>
    intro a h ha
    show (List.zipWith (· + ·) r (colSums n rest)).getD a 0 = _
    have hr : r.length = n := h r (by simp)
    have hcl : (colSums n rest).length = n :=
      colSums_length n rest (fun x hx => h x (by simp [hx]))
    have hb : a < (List.zipWith (· + ·) r (colSums n rest)).length := by
      rw [List.length_zipWith, hr, hcl]; simpa using ha
    rw [List.getD_eq_getElem _ _ hb, List.getElem_zipWith]
    rw [List.map_cons, List.sum_cons,
      ← ih a (fun x hx => h x (by simp [hx])) ha]
    rw [List.getD_eq_getElem _ _ (by omega : a < r.length),
      List.getD_eq_getElem _ _ (by omega : a < (colSums n rest).length)]

lemma trapzQ_colSums (pf : ℚ → Bool) (alts : List ℚ) : ∀ (rows : List (List ℚ)),
    (∀ r ∈ rows, r.length = alts.length) →
    trapzQ ((alts.zip (colSums alts.length rows)).filter (fun p => pf p.1)) =
      (rows.map (fun r => trapzQ ((alts.zip r).filter (fun p => pf p.1)))).sum := by
  intro rows
  induction rows with
  | nil =>
    intro _
    rw [List.map_nil, List.sum_nil]
    apply trapzQ_all_zero
    intro p hp
    have hp2 := List.mem_of_mem_filter hp
    rcases List.of_mem_zip hp2 with ⟨_, h2⟩
    exact List.eq_of_mem_replicate h2
  | cons r rest ih =>
    intro h
    have hr : r.length = alts.length := h r (by simp)
    have hcl : (colSums alts.length rest).length = alts.length :=
      colSums_length _ rest (fun x hx => h x (by simp [hx]))
    show trapzQ ((alts.zip (List.zipWith (· + ·) r (colSums alts.length rest))).filter
        (fun p => pf p.1)) = _
    rw [filter_zip_add pf alts r (colSums alts.length rest) (by rw [hr, hcl])]
    rw [trapzQ_sumSnd _ _ (filter_zip_fst pf alts r (colSums alts.length rest)
      (by rw [hr, hcl]))]
    rw [ih (fun x hx => h x (by simp [hx]))]
    simp

lemma filter_fst_congr (pf : ℚ → Bool) {p q : List (ℚ × Option ℚ)}
    (hpq : List.Forall₂ (fun x y => x.1 = y.1 ∧ (pf x.1 = true → x = y)) p q) :
    p.filter (fun x => pf x.1) = q.filter (fun x => pf x.1) := by
  induction hpq with
  | nil => rfl
  | @cons x y xs ys hxy _ ih =>
    simp only [List.filter_cons]
    by_cases h0 : pf x.1 = true
    · rw [hxy.2 h0, ih]
    · have hy0 : ¬ pf y.1 = true := by rw [← hxy.1]; exact h0
      simp [h0, hy0, ih]

lemma nanmean_map_some (l : List ℚ) (hne : l ≠ []) :
    nanmean (l.map some) = some (l.sum / l.length) := by
  unfold nanmean
  have hfm : (l.map some).filterMap id = l := by
    rw [List.filterMap_map]
    simp only [Function.comp_def, id_eq]
    exact List.filterMap_some l
  rw [hfm, if_neg (by simpa using hne)]

lemma filter_fillna_comm (pf : ℚ → Bool) (l : List (ℚ × Option ℚ)) (c : ℚ) :
    (fillna l c).filter (fun x => pf x.1) = fillna (l.filter (fun x => pf x.1)) c := by
  unfold fillna
  rw [List.filter_map]
  simp [Function.comp_def]

lemma filter_toSomeProf_comm (pf : ℚ → Bool) (u : List (ℚ × ℚ)) :
    (toSomeProf u).filter (fun x => pf x.1) =
      toSomeProf (u.filter (fun x => pf x.1)) := by
  unfold toSomeProf
  rw [List.filter_map]
  simp [Function.comp_def]

/-- The pure values produced by zero-filling below the tropopause: the cell
kept by the `where` condition (with NaN read as `0`, which never happens on
covered cells) and `0` elsewhere. -/
def fillRows (g : Grid) (km_above : ℚ) : List (List ℚ) :=
  List.zipWith
    (fun row trop =>
      List.zipWith
        (fun v alt => if tropCond trop km_above alt then v.getD 0 else 0)
        row g.altitude)
    g.extinction g.tropopause_altitude

lemma fillRows_length (g : Grid) (km : ℚ)
    (h : g.tropopause_altitude.length = g.extinction.length) :
    (fillRows g km).length = g.extinction.length := by
  unfold fillRows
  rw [List.length_zipWith, h]
  exact Nat.min_self _

lemma fillRows_getElem (g : Grid) (km : ℚ) (i : ℕ)
    (hi : i < g.extinction.length) (hit : i < g.tropopause_altitude.length)
    (hfi : i < (fillRows g km).length) :
    (fillRows g km)[i] =
      List.zipWith
        (fun v alt => if tropCond (g.tropopause_altitude.getD i none) km alt
          then v.getD 0 else 0)
        (g.extinction.getD i []) g.altitude := by
  unfold fillRows at hfi ⊢
  rw [List.getElem_zipWith, List.getD_eq_getElem _ _ hi,
    List.getD_eq_getElem _ _ hit]

lemma fillna_zip_trunc (km : ℚ) (trop : Option ℚ) : ∀ (alts : List ℚ)
    (row : List (Option ℚ)),
    fillna (alts.zip (List.zipWith
      (fun v alt => if tropCond trop km alt then v else none) row alts)) 0 =
    toSomeProf (alts.zip (List.zipWith
      (fun v alt => if tropCond trop km alt then v.getD 0 else 0) row alts)) := by
  intro alts
  induction alts with
  | nil => intro row; simp [fillna, toSomeProf]
  | cons a as ih =>
    intro row
    cases row with
    | nil => simp [fillna, toSomeProf]
    | cons v rw2 =>
      simp only [List.zipWith_cons_cons, List.zip_cons_cons]
      show (a, some ((if tropCond trop km a then v else none).getD 0)) ::
          fillna (as.zip _) 0 =
        (a, some (if tropCond trop km a then v.getD 0 else 0)) ::
          toSomeProf (as.zip _)
      rw [ih rw2]
      congr 2
      by_cases hc : tropCond trop km a = true
      · simp [hc]
      · simp only [Bool.not_eq_true] at hc
        simp [hc]

lemma truncate_getElem (g : Grid) (km : ℚ) (fv : Option ℚ) (i : ℕ)
    (hi : i < g.extinction.length) (hit : i < g.tropopause_altitude.length)
    (hfi : i < (truncate_below_tropopause g km fv).extinction.length) :
    (truncate_below_tropopause g km fv).extinction[i] =
      List.zipWith
        (fun v alt => if tropCond (g.tropopause_altitude.getD i none) km alt
          then v else fv)
        (g.extinction.getD i []) g.altitude := by
  unfold truncate_below_tropopause at hfi ⊢
  rw [List.getElem_zipWith, List.getD_eq_getElem _ _ hi,
    List.getD_eq_getElem _ _ hit]

/-- `altitude` lies at or above the (shifted) tropopause: false when the
tropopause is missing, as every float comparison with NaN is. -/
def tropGe (o : Option ℚ) (km alt : ℚ) : Bool :=
  match o with
  | none => false
  | some tr => decide (tr + km ≤ alt)

lemma tropCond_eq_true {o : Option ℚ} {km alt : ℚ} (h : tropCond o km alt = true) :
    ∃ tr, o = some tr ∧ tr + km < alt := by
  cases o with
  | none => simp [tropCond] at h
  | some tr => exact ⟨tr, rfl, by simpa [tropCond] using h⟩

/-- **C3**: on every well-formed grid in which no profile has a missing
extinction value at an altitude at or below `max_alt_km` and at or above its
own tropopause plus `km_above`, the CDF-weighted estimator and the
per-profile estimator return the same AOD: zero-filling below each profile's
tropopause followed by a time mean and one integration equals integrating
each zero-filled profile and then averaging, because the trapezoidal rule is
linear and no sample inside the integration range is dropped from a mean. -/
theorem cdf_eq_per_profile_full_coverage (g : Grid) (max_alt_km km_above : ℚ)
    (hwf : WF g)
    (hcov : ∀ t < g.extinction.length, ∀ a < g.altitude.length,
      g.altitude.getD a 0 ≤ max_alt_km →
      tropGe (g.tropopause_altitude.getD t none) km_above
        (g.altitude.getD a 0) = true →
      (g.extinction.getD t []).getD a none ≠ none) :
    (calculate_aod_cdf_tropopause g max_alt_km km_above).1 =
      (calculate_aod_per_profile g max_alt_km km_above).1 := by
  obtain ⟨hT, hTt, hrows, hpos, hsort⟩ := hwf
  set pf : ℚ → Bool := fun z => decide (0 ≤ z) && decide (z ≤ max_alt_km) with hpf
  have hTposE : 0 < g.extinction.length := by omega
  have hTtE : g.tropopause_altitude.length = g.extinction.length := by omega
  have hWlen : (fillRows g km_above).length = g.extinction.length :=
    fillRows_length g km_above hTtE
  have hWrows : ∀ r ∈ fillRows g km_above, r.length = g.altitude.length := by
    intro r hr
    rcases List.mem_iff_getElem.1 hr with ⟨i, hiW, hie⟩
    have hi : i < g.extinction.length := by omega
    rw [← hie, fillRows_getElem g km_above i hi (by omega) hiW]
    rw [List.length_zipWith, List.getD_eq_getElem _ _ hi,
      hrows _ (List.getElem_mem hi)]
    exact Nat.min_self _
  have htlenN : (truncate_below_tropopause g km_above none).extinction.length =
      g.extinction.length := by
    simp only [truncate_below_tropopause, List.length_zipWith]
    omega
  have htlen0 : (truncate_below_tropopause g km_above (some 0)).extinction.length =
      g.extinction.length := by
    simp only [truncate_below_tropopause, List.length_zipWith]
    omega
  have hper : (calculate_aod_per_profile g max_alt_km km_above).1 =
      some (((fillRows g km_above).map (fun w =>
          trapzQ ((g.altitude.zip w).filter (fun x => pf x.1)))).sum /
        (((fillRows g km_above).length : ℕ) : ℚ)) := by
    show nanmean ((truncate_below_tropopause g km_above none).extinction.map
        (fun row => trapz (fillna (selAlt (g.altitude.zip row) max_alt_km) 0))) = _
    have hmapeq : (truncate_below_tropopause g km_above none).extinction.map
        (fun row => trapz (fillna (selAlt (g.altitude.zip row) max_alt_km) 0)) =
        ((fillRows g km_above).map (fun w =>
          trapzQ ((g.altitude.zip w).filter (fun x => pf x.1)))).map some := by
      apply List.ext_getElem
      · simp [htlenN, hWlen]
      · intro i h1 h2
        rw [List.getElem_map, List.getElem_map, List.getElem_map]
        have hi : i < g.extinction.length := by
          rw [List.length_map, htlenN] at h1; exact h1
        have hiW : i < (fillRows g km_above).length := by omega
        rw [truncate_getElem g km_above none i hi (by omega) (by omega)]
        show trapz (fillna ((g.altitude.zip _).filter (fun x => pf x.1)) 0) = _
        rw [← filter_fillna_comm pf, fillna_zip_trunc km_above
          (g.tropopause_altitude.getD i none) g.altitude (g.extinction.getD i []),
          filter_toSomeProf_comm pf, trapz_toSomeProf]
        rw [fillRows_getElem g km_above i hi (by omega) hiW]
    rw [hmapeq, nanmean_map_some _ (by
      intro hnil
      have := congrArg List.length hnil
      simp only [List.length_map, List.length_nil, hWlen] at this
      omega)]
    rw [List.length_map]
  have hcolMean : ∀ a, a < g.altitude.length → g.altitude.getD a 0 ≤ max_alt_km →
      nanmean (column (truncate_below_tropopause g km_above (some 0)).extinction a) =
      some (((fillRows g km_above).map (fun r => r.getD a 0)).sum /
        (((fillRows g km_above).length : ℕ) : ℚ)) := by
    intro a ha hle
    have hcol : column (truncate_below_tropopause g km_above (some 0)).extinction a =
        ((fillRows g km_above).map (fun r => r.getD a 0)).map some := by
      apply List.ext_getElem
      · simp [column, htlen0, hWlen]
      · intro t h1 h2
        show ((truncate_below_tropopause g km_above (some 0)).extinction.map
          (fun row => row.getD a none))[t] = _
        rw [List.getElem_map, List.getElem_map, List.getElem_map]
        have ht : t < g.extinction.length := by
          simp only [column, List.length_map, htlen0] at h1; exact h1
        have htW : t < (fillRows g km_above).length := by omega
        rw [truncate_getElem g km_above (some 0) t ht (by omega)
          (by rw [htlen0]; exact ht)]
        rw [fillRows_getElem g km_above t ht (by omega) htW]
        have hrlen : (g.extinction.getD t []).length = g.altitude.length := by
          rw [List.getD_eq_getElem _ _ ht]; exact hrows _ (List.getElem_mem ht)
        have hb : a < (List.zipWith
            (fun v alt => if tropCond (g.tropopause_altitude.getD t none) km_above alt
              then v else some 0)
            (g.extinction.getD t []) g.altitude).length := by
          rw [List.length_zipWith, hrlen]; simpa using ha
        have hb2 : a < (List.zipWith
            (fun v alt => if tropCond (g.tropopause_altitude.getD t none) km_above alt
              then v.getD 0 else 0)
            (g.extinction.getD t []) g.altitude).length := by
          rw [List.length_zipWith, hrlen]; simpa using ha
        rw [List.getD_eq_getElem _ _ hb, List.getElem_zipWith,
          List.getD_eq_getElem _ _ hb2, List.getElem_zipWith]
        by_cases hc : tropCond (g.tropopause_altitude.getD t none) km_above
            (g.altitude[a]) = true
        · simp only [hc, if_true]
          rcases tropCond_eq_true hc with ⟨tr, htropt, hlt⟩
          have hnn := hcov t ht a ha hle (by
            rw [htropt]
            simp only [tropGe, decide_eq_true_eq]
            rw [List.getD_eq_getElem _ _ ha]
            exact le_of_lt hlt)
          rw [List.getD_eq_getElem _ _ (by rw [hrlen]; exact ha :
            a < (g.extinction.getD t []).length)] at hnn
          rcases Option.ne_none_iff_exists.1 hnn with ⟨x, hx⟩
          rw [← hx]
          simp
        · simp only [Bool.not_eq_true] at hc
          rw [List.getD_eq_getElem?_getD] at hc
          simp [hc]
    rw [hcol, nanmean_map_some _ (by
      intro hnil
      have := congrArg List.length hnil
      simp only [List.length_map, List.length_nil, hWlen] at this
      omega), List.length_map]
  have hcslen : (colSums g.altitude.length (fillRows g km_above)).length =
      g.altitude.length := colSums_length _ _ hWrows
  have hF2 : List.Forall₂ (fun x y => x.1 = y.1 ∧ (pf x.1 = true → x = y))
      (meanOverTime (truncate_below_tropopause g km_above (some 0)))
      (toSomeProf (g.altitude.zip
        ((colSums g.altitude.length (fillRows g km_above)).map
          (fun s => s / (((fillRows g km_above).length : ℕ) : ℚ))))) := by
    rw [List.forall₂_iff_get]
    constructor
    · have hl1 : (meanOverTime (truncate_below_tropopause g km_above
          (some 0))).length = g.altitude.length := by
        simp [meanOverTime, truncate_below_tropopause]
      have hl2 : (toSomeProf (g.altitude.zip
          ((colSums g.altitude.length (fillRows g km_above)).map
            (fun s => s / (((fillRows g km_above).length : ℕ) : ℚ))))).length =
          g.altitude.length := by
        simp [toSomeProf, List.length_zip, hcslen]
      rw [hl1, hl2]
    · intro a h1 h2
      have ha : a < g.altitude.length := by
        simpa [meanOverTime] using h1
      simp only [List.get_eq_getElem]
      unfold meanOverTime
      rw [List.getElem_map, List.getElem_range]
      unfold toSomeProf
      rw [List.getElem_map, List.getElem_zip, List.getElem_map]
      constructor
      · show g.altitude.getD a 0 = g.altitude[a]
        exact List.getD_eq_getElem _ _ ha
      · intro hx
        have hle : g.altitude.getD a 0 ≤ max_alt_km := by
          have hx2 : pf (g.altitude.getD a 0) = true := hx
          rw [hpf] at hx2
          simp only [Bool.and_eq_true, decide_eq_true_eq] at hx2
          exact hx2.2
        rw [Prod.mk.injEq]
        constructor
        · show g.altitude.getD a 0 = g.altitude[a]
          exact List.getD_eq_getElem _ _ ha
        · show nanmean (column (truncate_below_tropopause g km_above
            (some 0)).extinction a) = _
          rw [hcolMean a ha hle]
          congr 1
          congr 1
          rw [← List.getD_eq_getElem _ _ (by rw [hcslen]; exact ha :
            a < (colSums g.altitude.length (fillRows g km_above)).length),
            colSums_getD _ _ a hWrows ha]
  show trapz (selAlt (meanOverTime (truncate_below_tropopause g km_above (some 0)))
      max_alt_km) = _
  show trapz ((meanOverTime (truncate_below_tropopause g km_above
      (some 0))).filter (fun x => pf x.1)) = _
  rw [filter_fst_congr pf hF2, filter_toSomeProf_comm pf, trapz_toSomeProf, hper]
  congr 1
  rw [List.zip_map_right, List.filter_map]
  have hpred : ((fun x : ℚ × ℚ => pf x.1) ∘
      (Prod.map id (fun s => s / (((fillRows g km_above).length : ℕ) : ℚ)))) =
      (fun x : ℚ × ℚ => pf x.1) := by
    funext x
    simp [Prod.map, Function.comp]
  rw [hpred]
  have hmapfn : ((g.altitude.zip (colSums g.altitude.length
      (fillRows g km_above))).filter (fun x => pf x.1)).map
        (Prod.map id (fun s => s / (((fillRows g km_above).length : ℕ) : ℚ))) =
      ((g.altitude.zip (colSums g.altitude.length
        (fillRows g km_above))).filter (fun x => pf x.1)).map
        (fun p => (p.1, p.2 / (((fillRows g km_above).length : ℕ) : ℚ))) := by
    apply List.map_congr_left
    intro p _
    simp [Prod.map]
  rw [hmapfn, trapzQ_scaleSnd, trapzQ_colSums pf g.altitude _ hWrows]

theorem cdf_eq_per_profile_full_coverage_witness :
    (calculate_aod_cdf_tropopause wgrid 35 0).1 =
      (calculate_aod_per_profile wgrid 35 0).1 :=
  cdf_eq_per_profile_full_coverage wgrid 35 0
    (by with_unfolding_all decide) (by with_unfolding_all decide)

/-- **C4** (amended): on every well-formed grid each estimator returns a
single scalar value (the embedding is total), and when every contributing
sample — every bin with `0 ≤ altitude ≤ max_alt_km`, in every profile — is
excluded by the truncation condition, for example when each profile's
tropopause lies above `max_alt_km` and `km_above` is nonnegative, all four
estimators return the scalar `0.0` (the integral of an all-zero or empty
selection), not NaN and not an exception. -/
theorem estimators_degenerate_return_zero (g : Grid) (max_alt_km km_above : ℚ)
    (hwf : WF g)
    (hexc : ∀ t < g.tropopause_altitude.length, ∀ a < g.altitude.length,
      0 ≤ g.altitude.getD a 0 → g.altitude.getD a 0 ≤ max_alt_km →
      tropCond (g.tropopause_altitude.getD t none) km_above
        (g.altitude.getD a 0) = false) :
    (calculate_aod_cdf_tropopause g max_alt_km km_above).1 = some 0 ∧
    (calculate_aod_mean_tropopause g max_alt_km km_above).1 = some 0 ∧
    (calculate_aod_local_tropopause g max_alt_km km_above).1 = some 0 ∧
    (calculate_aod_per_profile g max_alt_km km_above).1 = some 0 := by
  obtain ⟨hT, hTt, hrows, hpos, hsort⟩ := hwf
  have hTpos : 0 < g.extinction.length := by omega
  have htlen0 : (truncate_below_tropopause g km_above (some 0)).extinction.length =
      g.extinction.length := by
    simp only [truncate_below_tropopause, List.length_zipWith]
    omega
  have htlenN : (truncate_below_tropopause g km_above none).extinction.length =
      g.extinction.length := by
    simp only [truncate_below_tropopause, List.length_zipWith]
    omega
  have hcell : ∀ (fv : Option ℚ) (x : Option ℚ) (a : ℕ), a < g.altitude.length →
      0 ≤ g.altitude.getD a 0 → g.altitude.getD a 0 ≤ max_alt_km →
      x ∈ column (truncate_below_tropopause g km_above fv).extinction a →
      x = fv := by
    intro fv x a ha h0 hle hx
    unfold column at hx
    rcases List.mem_map.1 hx with ⟨row, hrow, hxe⟩
    rcases List.mem_iff_getElem.1 hrow with ⟨i, hiT, hie⟩
    have hi : i < g.extinction.length := by
      rw [show (truncate_below_tropopause g km_above fv).extinction.length =
          g.extinction.length from by
        simp only [truncate_below_tropopause, List.length_zipWith]; omega] at hiT
      exact hiT
    rw [← hxe, ← hie, truncate_getElem g km_above fv i hi (by omega) hiT]
    have hrlen : (g.extinction.getD i []).length = g.altitude.length := by
      rw [List.getD_eq_getElem _ _ hi]
      exact hrows _ (List.getElem_mem hi)
    have hb : a < (List.zipWith
        (fun v alt => if tropCond (g.tropopause_altitude.getD i none) km_above alt
          then v else fv)
        (g.extinction.getD i []) g.altitude).length := by
      rw [List.length_zipWith, hrlen]
      simpa using ha
    rw [List.getD_eq_getElem _ _ hb, List.getElem_zipWith]
    have hc := hexc i (by omega) a ha h0 hle
    rw [List.getD_eq_getElem _ _ ha] at hc
    rw [hc]
    simp
  have hmot : ∀ (d : Grid) (p : ℚ × Option ℚ), d.altitude = g.altitude →
      p ∈ selAlt (meanOverTime d) max_alt_km →
      ∃ a, a < g.altitude.length ∧ 0 ≤ g.altitude.getD a 0 ∧
        g.altitude.getD a 0 ≤ max_alt_km ∧
        p.2 = nanmean (column d.extinction a) := by
    intro d p hda hp
    have hpred := List.of_mem_filter hp
    have hp2 := List.mem_of_mem_filter hp
    unfold meanOverTime at hp2
    rcases List.mem_map.1 hp2 with ⟨a, haR, hpe⟩
    have ha : a < g.altitude.length := by
      rw [← hda]; exact List.mem_range.1 haR
    rw [← hpe] at hpred
    simp only [Bool.and_eq_true, decide_eq_true_eq] at hpred
    refine ⟨a, ha, ?_, ?_, ?_⟩
    · rw [← hda]; exact hpred.1
    · rw [← hda]; exact hpred.2
    · rw [← hpe]
  refine ⟨?_, ?_, ?_, ?_⟩
  -- CDF estimator: every selected column is all zeros, ∫0 = 0
  · show trapz (selAlt (meanOverTime
        (truncate_below_tropopause g km_above (some 0))) max_alt_km) = some 0
    apply trapz_all_zero
    intro p hp
    rcases hmot (truncate_below_tropopause g km_above (some 0)) p rfl hp
      with ⟨a, ha, h0, hle, hp2⟩
    rw [hp2]
    apply nanmean_all_zero
    · intro x hx
      exact hcell (some 0) x a ha h0 hle hx
    · intro hnil
      have := congrArg List.length hnil
      simp only [column, List.length_map, List.length_nil, htlen0] at this
      omega
  -- mean-tropopause estimator: every selected column is all NaN, all dropped
  · show trapz (dropNonpos (selAlt (meanOverTime
        ({ g with extinction := g.extinction.map (fun row =>
          List.zipWith (fun v alt =>
            if tropCond (nanmean g.tropopause_altitude) km_above alt then v else none)
            row g.altitude) } : Grid)) max_alt_km)) = some 0
    rw [show dropNonpos (selAlt (meanOverTime
        ({ g with extinction := g.extinction.map (fun row =>
          List.zipWith (fun v alt =>
            if tropCond (nanmean g.tropopause_altitude) km_above alt then v else none)
            row g.altitude) } : Grid)) max_alt_km) = [] from ?_, trapz_nil]
    apply dropNonpos_all_none
    intro p hp
    rcases hmot ({ g with extinction := g.extinction.map (fun row =>
        List.zipWith (fun v alt =>
          if tropCond (nanmean g.tropopause_altitude) km_above alt then v else none)
          row g.altitude) } : Grid) p rfl hp with ⟨a, ha, h0, hle, hp2⟩
    rw [hp2]
    apply nanmean_all_none
    intro x hx
    unfold column at hx
    rcases List.mem_map.1 hx with ⟨row, hrow, hxe⟩
    rcases List.mem_iff_getElem.1 hrow with ⟨i, hiM, hie⟩
    have hi : i < g.extinction.length := by simpa using hiM
    rw [← hxe, ← hie]
    show (g.extinction.map (fun row =>
        List.zipWith (fun v alt =>
          if tropCond (nanmean g.tropopause_altitude) km_above alt then v else none)
          row g.altitude))[i].getD a none = none
    rw [List.getElem_map]
    have hrlen : (g.extinction[i]).length = g.altitude.length :=
      hrows _ (List.getElem_mem hi)
    have hb : a < (List.zipWith (fun v alt =>
        if tropCond (nanmean g.tropopause_altitude) km_above alt then v else none)
        (g.extinction[i]) g.altitude).length := by
      rw [List.length_zipWith, hrlen]
      simpa using ha
    rw [List.getD_eq_getElem _ _ hb, List.getElem_zipWith]
    have hmc : tropCond (nanmean g.tropopause_altitude) km_above
        (g.altitude.getD a 0) = false := by
      apply tropCond_nanmean_false
      intro x2 hx2
      rcases List.mem_iff_getElem.1 hx2 with ⟨t, htt, hxe2⟩
      have h5 := hexc t htt a ha h0 hle
      rw [List.getD_eq_getElem _ _ htt, hxe2] at h5
      exact h5
    rw [List.getD_eq_getElem _ _ ha] at hmc
    rw [hmc]
    simp
  -- local-tropopause estimator: every selected column is all NaN, all dropped
  · show trapz (dropNonpos (selAlt (meanOverTime
        (truncate_below_tropopause g km_above none)) max_alt_km)) = some 0
    rw [show dropNonpos (selAlt (meanOverTime
        (truncate_below_tropopause g km_above none)) max_alt_km) = []
      from ?_, trapz_nil]
    apply dropNonpos_all_none
    intro p hp
    rcases hmot (truncate_below_tropopause g km_above none) p rfl hp
      with ⟨a, ha, h0, hle, hp2⟩
    rw [hp2]
    apply nanmean_all_none
    intro x hx
    exact hcell none x a ha h0 hle hx
  -- per-profile estimator: every selected sample fills to 0, ∫0 = 0 per profile
  · show nanmean ((truncate_below_tropopause g km_above none).extinction.map
        (fun row => trapz (fillna (selAlt (g.altitude.zip row) max_alt_km) 0))) =
      some 0
    apply nanmean_all_zero
    · intro x hx
      rcases List.mem_map.1 hx with ⟨row, hrow, hxe⟩
      rcases List.mem_iff_getElem.1 hrow with ⟨i, hiT, hie⟩
      have hi : i < g.extinction.length := by rw [htlenN] at hiT; exact hiT
      rw [← hxe]
      apply trapz_all_zero
      intro p hp
      unfold fillna at hp
      rcases List.mem_map.1 hp with ⟨q, hq, hpe⟩
      have hqpred := List.of_mem_filter hq
      have hq2 := List.mem_of_mem_filter hq
      rcases List.mem_iff_getElem.1 hq2 with ⟨j, hjz, hje⟩
      have hj1 : j < g.altitude.length := by
        simp only [List.length_zip] at hjz; omega
      have hj2 : j < row.length := by
        simp only [List.length_zip] at hjz; omega
      rw [List.getElem_zip] at hje
      rw [← hpe, ← hje]
      rw [← hje] at hqpred
      simp only [Bool.and_eq_true, decide_eq_true_eq] at hqpred
      have h0j : 0 ≤ g.altitude.getD j 0 := by
        rw [List.getD_eq_getElem _ _ hj1]; exact hqpred.1
      have hlej : g.altitude.getD j 0 ≤ max_alt_km := by
        rw [List.getD_eq_getElem _ _ hj1]; exact hqpred.2
      have hrowval : row = List.zipWith
          (fun v alt => if tropCond (g.tropopause_altitude.getD i none) km_above alt
            then v else none)
          (g.extinction.getD i []) g.altitude := by
        rw [← hie, truncate_getElem g km_above none i hi (by omega) hiT]
      have hrlen : (g.extinction.getD i []).length = g.altitude.length := by
        rw [List.getD_eq_getElem _ _ hi]
        exact hrows _ (List.getElem_mem hi)
      have hjr : j < (List.zipWith
          (fun v alt => if tropCond (g.tropopause_altitude.getD i none) km_above alt
            then v else none)
          (g.extinction.getD i []) g.altitude).length := by
        rw [List.length_zipWith, hrlen]
        simpa using hj1
      have hrj : row.getD j none = none := by
        rw [hrowval, List.getD_eq_getElem _ _ hjr, List.getElem_zipWith]
        have hc := hexc i (by omega) j hj1 h0j hlej
        rw [List.getD_eq_getElem _ _ hj1] at hc
        rw [hc]
        simp
      show some (row[j].getD 0) = some 0
      rw [← List.getD_eq_getElem _ _ hj2, hrj]
      rfl
    · intro hnil
      have := congrArg List.length hnil
      simp only [List.length_map, List.length_nil, htlenN] at this
      omega

/-- A grid with bins above both `max_alt_km = 35` and the tropopause
(36 km for both profiles): the surviving bin at 38 km lies outside the
integration range, so every contributing sample is excluded. -/
def dgrid2 : Grid :=
  ⟨[0, 1], [21/2, 34, 38], [[some 1, some 1, some 1], [some 1, some 1, some 1]],
    [some 36, some 36]⟩

theorem estimators_degenerate_return_zero_witness :
    (calculate_aod_cdf_tropopause dgrid2 35 0).1 = some 0 ∧
    (calculate_aod_mean_tropopause dgrid2 35 0).1 = some 0 ∧
    (calculate_aod_local_tropopause dgrid2 35 0).1 = some 0 ∧
    (calculate_aod_per_profile dgrid2 35 0).1 = some 0 :=
  estimators_degenerate_return_zero dgrid2 35 0 (by with_unfolding_all decide)
    (by with_unfolding_all decide)
